import Mathlib

/-! Verification of the GitFind early-signal scoring engine and ingestion
pipeline, shallowly embedded from the TypeScript sources. JavaScript numbers
are modelled as real numbers, `Math.log` as `Real.log`, and `Math.round` as
Mathlib's `round : ℝ → ℤ` (both round halves toward positive infinity).
Fetch-dependent code is modelled as functions of explicit response oracles. -/

namespace GitFind

/-- Input record of `calculateScore` (src/lib/score.ts). The optional
acceleration fields (`stars_7d_prev?`, `forks_7d?`, `forks_7d_prev?`) are
`Option`s, mirroring the optional `number` fields. -/
structure ScoreInputs where
  stars : ℝ
  stars_7d : ℝ
  stars_30d : ℝ
  contributors : ℝ
  forks : ℝ
  hn_mentions_7d : ℝ
  hn_mentions_30d : ℝ
  commits_30d : ℝ
  stars_7d_prev : Option ℝ
  forks_7d : Option ℝ
  forks_7d_prev : Option ℝ

/-- Labeled score breakdown (src/lib/score.ts, `ScoreBreakdown`). All fields
are JavaScript numbers, hence reals; the rounded ones are integer-valued. -/
structure ScoreBreakdown where
  star_velocity_score : ℝ
  contributor_ratio_score : ℝ
  fork_velocity_score : ℝ
  mention_velocity_score : ℝ
  commit_frequency_score : ℝ
  star_acceleration_score : ℝ
  fork_acceleration_score : ℝ
  manipulation_penalty : ℝ
  raw_score : ℝ
  final_score : ℝ

/-- Result of `calculateScore` (src/lib/score.ts, `ScoreResult`). -/
structure ScoreResult where
  score : ℝ
  breakdown : ScoreBreakdown

/-- `logNormalise` from src/lib/score.ts: normalise a raw value to 0–100 on a
logarithmic scale. -/
noncomputable def logNormalise (value scale : ℝ) : ℝ :=
  if value ≤ 0 then 0
  else min 100 (max 0 (Real.log (value + 1) / Real.log (scale + 1) * 100))

/-- `linearNormalise` from src/lib/score.ts: `value / max * 100` clamped to
0–100. -/
noncomputable def linearNormalise (value maxScale : ℝ) : ℝ :=
  if maxScale ≤ 0 then 0 else min 100 (max 0 (value / maxScale * 100))

/-- `calcStarVelocity` from src/lib/score.ts. -/
noncomputable def calcStarVelocity (stars_7d : ℝ) : ℝ :=
  logNormalise stars_7d 1000

/-- `calcContributorRatio` from src/lib/score.ts. -/
noncomputable def calcContributorRatio (contributors stars : ℝ) : ℝ :=
  if stars ≤ 0 then 0 else linearNormalise (contributors / stars) 0.2

/-- `calcForkVelocity` from src/lib/score.ts. -/
noncomputable def calcForkVelocity (forks stars : ℝ) : ℝ :=
  if stars ≤ 0 then 0 else linearNormalise (forks / stars) 0.4

/-- `calcMentionVelocity` from src/lib/score.ts. -/
noncomputable def calcMentionVelocity (hn_mentions_7d hn_mentions_30d : ℝ) : ℝ :=
  logNormalise (hn_mentions_7d * 2 + hn_mentions_30d * 0.5) 50

/-- `calcCommitFrequency` from src/lib/score.ts. -/
noncomputable def calcCommitFrequency (commits_30d : ℝ) : ℝ :=
  logNormalise commits_30d 50

/-- `calcAcceleration` from src/lib/score.ts: `null`/`undefined` arguments,
a non-positive argument, or a non-accelerating ratio all yield 0. -/
noncomputable def calcAcceleration : Option ℝ → Option ℝ → ℝ
  | some cur, some prev =>
      if prev ≤ 0 ∨ cur ≤ 0 then 0
      else if cur / prev ≤ 1 then 0
      else logNormalise (cur / prev - 1) 4
  | _, _ => 0

/-- `calcManipulationPenalty` from src/lib/score.ts: two graduated rule
chains whose contributions add, capped at 30. -/
noncomputable def calcManipulationPenalty (i : ScoreInputs) : ℝ :=
  let p1 : ℝ :=
    if 500 < i.stars_7d ∧ i.commits_30d < 5 then 20
    else if 200 < i.stars_7d ∧ i.commits_30d < 2 then 15
    else if 100 < i.stars_7d ∧ i.commits_30d = 0 then 10
    else 0
  let p2 : ℝ :=
    if 1000 < i.stars ∧ i.contributors < 2 then 10
    else if 500 < i.stars ∧ i.contributors < 2 then 5
    else 0
  min 30 (p1 + p2)

/-- The weighted raw score of `calculateScore` (src/lib/score.ts), before
the manipulation penalty. -/
noncomputable def rawScore (i : ScoreInputs) : ℝ :=
  calcStarVelocity i.stars_7d * 0.25 +
  calcContributorRatio i.contributors i.stars * 0.20 +
  calcForkVelocity i.forks i.stars * 0.10 +
  calcMentionVelocity i.hn_mentions_7d i.hn_mentions_30d * 0.15 +
  calcCommitFrequency i.commits_30d * 0.10 +
  calcAcceleration (some i.stars_7d) i.stars_7d_prev * 0.10 +
  calcAcceleration i.forks_7d i.forks_7d_prev * 0.10

/-- `calculateScore` from src/lib/score.ts. -/
noncomputable def calculateScore (i : ScoreInputs) : ScoreResult :=
  let raw := rawScore i
  let pen := calcManipulationPenalty i
  let fin : ℝ := ((round (min 100 (max 0 (raw - pen))) : ℤ) : ℝ)
  { score := fin
    breakdown :=
      { star_velocity_score := ((round (calcStarVelocity i.stars_7d) : ℤ) : ℝ)
        contributor_ratio_score :=
          ((round (calcContributorRatio i.contributors i.stars) : ℤ) : ℝ)
        fork_velocity_score := ((round (calcForkVelocity i.forks i.stars) : ℤ) : ℝ)
        mention_velocity_score :=
          ((round (calcMentionVelocity i.hn_mentions_7d i.hn_mentions_30d) : ℤ) : ℝ)
        commit_frequency_score := ((round (calcCommitFrequency i.commits_30d) : ℤ) : ℝ)
        star_acceleration_score :=
          ((round (calcAcceleration (some i.stars_7d) i.stars_7d_prev) : ℤ) : ℝ)
        fork_acceleration_score :=
          ((round (calcAcceleration i.forks_7d i.forks_7d_prev) : ℤ) : ℝ)
        manipulation_penalty := pen
        raw_score := ((round raw : ℤ) : ℝ)
        final_score := fin } }

/-! ### Range lemmas for the individual signals -/

lemma logNormalise_nonneg (v s : ℝ) : 0 ≤ logNormalise v s := by
  unfold logNormalise
  split
  · exact le_refl 0
  · exact le_min (by norm_num) (le_max_left 0 _)

lemma logNormalise_le_100 (v s : ℝ) : logNormalise v s ≤ 100 := by
  unfold logNormalise
  split
  · norm_num
  · exact min_le_left _ _

lemma linearNormalise_nonneg (v m : ℝ) : 0 ≤ linearNormalise v m := by
  unfold linearNormalise
  split
  · exact le_refl 0
  · exact le_min (by norm_num) (le_max_left 0 _)

lemma linearNormalise_le_100 (v m : ℝ) : linearNormalise v m ≤ 100 := by
  unfold linearNormalise
  split
  · norm_num
  · exact min_le_left _ _

lemma calcContributorRatio_nonneg (c s : ℝ) : 0 ≤ calcContributorRatio c s := by
  unfold calcContributorRatio
  split
  · exact le_refl 0
  · exact linearNormalise_nonneg _ _

lemma calcContributorRatio_le_100 (c s : ℝ) : calcContributorRatio c s ≤ 100 := by
  unfold calcContributorRatio
  split
  · norm_num
  · exact linearNormalise_le_100 _ _

lemma calcForkVelocity_nonneg (f s : ℝ) : 0 ≤ calcForkVelocity f s := by
  unfold calcForkVelocity
  split
  · exact le_refl 0
  · exact linearNormalise_nonneg _ _

lemma calcForkVelocity_le_100 (f s : ℝ) : calcForkVelocity f s ≤ 100 := by
  unfold calcForkVelocity
  split
  · norm_num
  · exact linearNormalise_le_100 _ _

lemma calcAcceleration_nonneg (c p : Option ℝ) : 0 ≤ calcAcceleration c p := by
  unfold calcAcceleration
  rcases c with _ | cur
  · exact le_refl 0
  · rcases p with _ | prev
    · exact le_refl 0
    · dsimp only
      split
      · exact le_refl 0
      · split
        · exact le_refl 0
        · exact logNormalise_nonneg _ _

lemma calcAcceleration_le_100 (c p : Option ℝ) : calcAcceleration c p ≤ 100 := by
  unfold calcAcceleration
  rcases c with _ | cur
  · norm_num
  · rcases p with _ | prev
    · norm_num
    · dsimp only
      split
      · norm_num
      · split
        · norm_num
        · exact logNormalise_le_100 _ _

lemma calcManipulationPenalty_nonneg (i : ScoreInputs) :
    0 ≤ calcManipulationPenalty i := by
  unfold calcManipulationPenalty
  refine le_min (by norm_num) ?_
  have h1 : (0:ℝ) ≤
      (if 500 < i.stars_7d ∧ i.commits_30d < 5 then (20:ℝ)
       else if 200 < i.stars_7d ∧ i.commits_30d < 2 then 15
       else if 100 < i.stars_7d ∧ i.commits_30d = 0 then 10
       else 0) := by
    split
    · norm_num
    · split
      · norm_num
      · split
        · norm_num
        · norm_num
  have h2 : (0:ℝ) ≤
      (if 1000 < i.stars ∧ i.contributors < 2 then (10:ℝ)
       else if 500 < i.stars ∧ i.contributors < 2 then 5
       else 0) := by
    split
    · norm_num
    · split
      · norm_num
      · norm_num
  linarith

lemma calcManipulationPenalty_le_30 (i : ScoreInputs) :
    calcManipulationPenalty i ≤ 30 := by
  unfold calcManipulationPenalty
  exact min_le_left _ _

lemma rawScore_nonneg (i : ScoreInputs) : 0 ≤ rawScore i := by
  unfold rawScore
  have h1 := logNormalise_nonneg i.stars_7d 1000
  have h2 := calcContributorRatio_nonneg i.contributors i.stars
  have h3 := calcForkVelocity_nonneg i.forks i.stars
  have h4 := logNormalise_nonneg (i.hn_mentions_7d * 2 + i.hn_mentions_30d * 0.5) 50
  have h5 := logNormalise_nonneg i.commits_30d 50
  have h6 := calcAcceleration_nonneg (some i.stars_7d) i.stars_7d_prev
  have h7 := calcAcceleration_nonneg i.forks_7d i.forks_7d_prev
  unfold calcStarVelocity calcMentionVelocity calcCommitFrequency
  linarith

lemma rawScore_le_100 (i : ScoreInputs) : rawScore i ≤ 100 := by
  unfold rawScore
  have h1 := logNormalise_le_100 i.stars_7d 1000
  have h2 := calcContributorRatio_le_100 i.contributors i.stars
  have h3 := calcForkVelocity_le_100 i.forks i.stars
  have h4 := logNormalise_le_100 (i.hn_mentions_7d * 2 + i.hn_mentions_30d * 0.5) 50
  have h5 := logNormalise_le_100 i.commits_30d 50
  have h6 := calcAcceleration_le_100 (some i.stars_7d) i.stars_7d_prev
  have h7 := calcAcceleration_le_100 i.forks_7d i.forks_7d_prev
  unfold calcStarVelocity calcMentionVelocity calcCommitFrequency
  linarith

lemma round_mono' {x y : ℝ} (h : x ≤ y) : round x ≤ round y := by
  rw [round_eq, round_eq]
  exact Int.floor_le_floor (by linarith)

/-- C1: for every metric input record, `calculateScore` returns a score that
is an integer (the value of an integer-valued rounding) lying in [0, 100]. -/
theorem calculateScore_range (i : ScoreInputs) :
    (∃ k : ℤ, (calculateScore i).score = (k : ℝ)) ∧
      0 ≤ (calculateScore i).score ∧ (calculateScore i).score ≤ 100 := by
  have hraw0 := rawScore_nonneg i
  have hraw100 := rawScore_le_100 i
  have hpen0 := calcManipulationPenalty_nonneg i
  have hpen30 := calcManipulationPenalty_le_30 i
  have hval0 : (0:ℝ) ≤ min 100 (max 0 (rawScore i - calcManipulationPenalty i)) :=
    le_min (by norm_num) (le_max_left 0 _)
  have hval100 : min 100 (max 0 (rawScore i - calcManipulationPenalty i)) ≤ 100 :=
    min_le_left _ _
  have hlo : (0:ℤ) ≤ round (min 100 (max 0 (rawScore i - calcManipulationPenalty i))) := by
    have h := round_mono' hval0
    simpa using h
  have hhi : round (min 100 (max 0 (rawScore i - calcManipulationPenalty i))) ≤ 100 := by
    have h := round_mono' hval100
    have h100 : round ((100:ℝ)) = (100:ℤ) := by
      have hc : ((100:ℤ):ℝ) = (100:ℝ) := by norm_num
      rw [← hc, round_intCast]
    rw [h100] at h
    exact h
  refine ⟨⟨round (min 100 (max 0 (rawScore i - calcManipulationPenalty i))), rfl⟩, ?_, ?_⟩
  · show (0:ℝ) ≤ ((round (min 100 (max 0 (rawScore i - calcManipulationPenalty i))) : ℤ) : ℝ)
    exact_mod_cast hlo
  · show ((round (min 100 (max 0 (rawScore i - calcManipulationPenalty i))) : ℤ) : ℝ) ≤ 100
    exact_mod_cast hhi

/-! ### Evaluation and comparison helpers for the logarithmic signals -/

lemma logNormalise_zero (s : ℝ) : logNormalise 0 s = 0 := if_pos le_rfl

lemma logNormalise_eq {v s : ℝ} (hv : 0 < v) (hs : v ≤ s) :
    logNormalise v s = Real.log (v + 1) / Real.log (s + 1) * 100 := by
  unfold logNormalise
  rw [if_neg (by linarith)]
  have hlogs : 0 < Real.log (s + 1) := Real.log_pos (by linarith)
  have hlogv : 0 ≤ Real.log (v + 1) := Real.log_nonneg (by linarith)
  have h0 : 0 ≤ Real.log (v + 1) / Real.log (s + 1) * 100 := by positivity
  have hle : Real.log (v + 1) ≤ Real.log (s + 1) :=
    Real.log_le_log (by linarith) (by linarith)
  have h100 : Real.log (v + 1) / Real.log (s + 1) * 100 ≤ 100 := by
    have h1 : Real.log (v + 1) / Real.log (s + 1) ≤ 1 :=
      div_le_one_of_le hle (le_of_lt hlogs)
    nlinarith
  rw [max_eq_right h0, min_eq_right h100]

lemma logNormalise_eq_100 {v s : ℝ} (hs : 0 < s) (h : s ≤ v) :
    logNormalise v s = 100 := by
  unfold logNormalise
  rw [if_neg (by linarith)]
  have hlogs : 0 < Real.log (s + 1) := Real.log_pos (by linarith)
  have hge : Real.log (s + 1) ≤ Real.log (v + 1) :=
    Real.log_le_log (by linarith) (by linarith)
  have h1 : (1:ℝ) ≤ Real.log (v + 1) / Real.log (s + 1) :=
    (one_le_div hlogs).mpr hge
  have h100 : (100:ℝ) ≤ Real.log (v + 1) / Real.log (s + 1) * 100 := by nlinarith
  rw [max_eq_right (by linarith), min_eq_left h100]

/-- Transfer an inequality between integer powers to the weighted logarithms. -/
lemma mul_log_le_of_pow_le {a b : ℝ} (m n : ℕ) (ha : 0 < a)
    (h : a ^ m ≤ b ^ n) : (m : ℝ) * Real.log a ≤ (n : ℝ) * Real.log b := by
  rw [← Real.log_pow, ← Real.log_pow]
  exact Real.log_le_log (pow_pos ha m) h

/-- Strict version of `mul_log_le_of_pow_le`. -/
lemma mul_log_lt_of_pow_lt {a b : ℝ} (m n : ℕ) (ha : 0 < a)
    (h : a ^ m < b ^ n) : (m : ℝ) * Real.log a < (n : ℝ) * Real.log b := by
  rw [← Real.log_pow, ← Real.log_pow]
  exact Real.log_lt_log (pow_pos ha m) h

/-! ### Monotonicity of the individual signals -/

lemma logNormalise_mono {s : ℝ} (hs : 0 < s) {v v' : ℝ} (h : v ≤ v') :
    logNormalise v s ≤ logNormalise v' s := by
  by_cases hv' : v' ≤ 0
  · unfold logNormalise
    rw [if_pos (le_trans h hv'), if_pos hv']
  · by_cases hv : v ≤ 0
    · unfold logNormalise
      rw [if_pos hv, if_neg hv']
      exact le_min (by norm_num) (le_max_left 0 _)
    · push_neg at hv hv'
      unfold logNormalise
      rw [if_neg (by linarith), if_neg (by linarith)]
      have hlogs : 0 < Real.log (s + 1) := Real.log_pos (by linarith)
      have hlog : Real.log (v + 1) ≤ Real.log (v' + 1) :=
        Real.log_le_log (by linarith) (by linarith)
      have hx : Real.log (v + 1) / Real.log (s + 1) * 100 ≤
          Real.log (v' + 1) / Real.log (s + 1) * 100 := by
        have h1 : Real.log (v + 1) / Real.log (s + 1) ≤
            Real.log (v' + 1) / Real.log (s + 1) :=
          (div_le_div_right hlogs).mpr hlog
        nlinarith
      exact min_le_min le_rfl (max_le_max le_rfl hx)

lemma calcStarVelocity_mono {v v' : ℝ} (h : v ≤ v') :
    calcStarVelocity v ≤ calcStarVelocity v' :=
  logNormalise_mono (by norm_num) h

lemma calcMentionVelocity_mono {m7 m7' m30 m30' : ℝ} (h7 : m7 ≤ m7')
    (h30 : m30 ≤ m30') :
    calcMentionVelocity m7 m30 ≤ calcMentionVelocity m7' m30' :=
  logNormalise_mono (by norm_num) (by linarith)

lemma linearNormalise_mono {m : ℝ} (hm : 0 < m) {v v' : ℝ} (h : v ≤ v') :
    linearNormalise v m ≤ linearNormalise v' m := by
  unfold linearNormalise
  rw [if_neg (by linarith), if_neg (by linarith)]
  have hx : v / m * 100 ≤ v' / m * 100 := by
    have h1 : v / m ≤ v' / m := (div_le_div_right hm).mpr h
    nlinarith
  exact min_le_min le_rfl (max_le_max le_rfl hx)

lemma calcContributorRatio_mono {s : ℝ} {c c' : ℝ} (h : c ≤ c') :
    calcContributorRatio c s ≤ calcContributorRatio c' s := by
  unfold calcContributorRatio
  split
  · exact le_refl 0
  · rename_i hs
    push_neg at hs
    exact linearNormalise_mono (by norm_num) ((div_le_div_right hs).mpr h)

lemma calcAcceleration_some_some (cur prev : ℝ) :
    calcAcceleration (some cur) (some prev) =
      if prev ≤ 0 ∨ cur ≤ 0 then 0
      else if cur / prev ≤ 1 then 0
      else logNormalise (cur / prev - 1) 4 := rfl

lemma calcAcceleration_none_right (c : Option ℝ) :
    calcAcceleration c none = 0 := by
  cases c <;> rfl

lemma calcAcceleration_mono_cur {p : Option ℝ} {v v' : ℝ} (h : v ≤ v') :
    calcAcceleration (some v) p ≤ calcAcceleration (some v') p := by
  rcases p with _ | pv
  · exact le_refl 0
  · rw [calcAcceleration_some_some, calcAcceleration_some_some]
    by_cases hp : pv ≤ 0
    · rw [if_pos (Or.inl hp), if_pos (Or.inl hp)]
    · push_neg at hp
      by_cases hv : v ≤ 0
      · rw [if_pos (Or.inr hv)]
        rw [← calcAcceleration_some_some]
        exact calcAcceleration_nonneg (some v') (some pv)
      · push_neg at hv
        have hv' : (0:ℝ) < v' := lt_of_lt_of_le hv h
        have hL : ¬(pv ≤ 0 ∨ v ≤ 0) := by push_neg; exact ⟨hp, hv⟩
        have hR : ¬(pv ≤ 0 ∨ v' ≤ 0) := by push_neg; exact ⟨hp, hv'⟩
        rw [if_neg hL, if_neg hR]
        have hratio : v / pv ≤ v' / pv := (div_le_div_right hp).mpr h
        by_cases hr : v / pv ≤ 1
        · rw [if_pos hr]
          split
          · exact le_refl 0
          · exact logNormalise_nonneg _ _
        · push_neg at hr
          have hr' : ¬(v' / pv ≤ 1) := not_le.mpr (by linarith)
          rw [if_neg (not_le.mpr hr), if_neg hr']
          exact logNormalise_mono (by norm_num) (by linarith)

lemma round_cast_mono {x y : ℝ} (h : x ≤ y) :
    ((round x : ℤ) : ℝ) ≤ ((round y : ℤ) : ℝ) := by
  exact_mod_cast round_mono' h

/-- Scores compare whenever the raw scores and penalties compare. -/
lemma calculateScore_le_of {i i' : ScoreInputs} (hraw : rawScore i ≤ rawScore i')
    (hpen : calcManipulationPenalty i' ≤ calcManipulationPenalty i) :
    (calculateScore i).score ≤ (calculateScore i').score := by
  show ((round (min 100 (max 0 (rawScore i - calcManipulationPenalty i))) : ℤ) : ℝ) ≤
    ((round (min 100 (max 0 (rawScore i' - calcManipulationPenalty i'))) : ℤ) : ℝ)
  exact round_cast_mono
    (min_le_min le_rfl (max_le_max le_rfl (by linarith)))

/-! ### C2: monotonicity of the score in the three inputs -/

/-- The reference unit test's base record, with `commits_30d` lowered to 0 so
that the star-spike penalty thresholds are live. -/
noncomputable def spikeA : ScoreInputs :=
  ⟨500, 100, 300, 25, 80, 5, 12, 0, none, none, none⟩

/-- `spikeA` with `stars_7d` increased from 100 to 101. -/
noncomputable def spikeB : ScoreInputs :=
  ⟨500, 101, 300, 25, 80, 5, 12, 0, none, none, none⟩

lemma pen_spikeA : calcManipulationPenalty spikeA = 0 := by
  norm_num [calcManipulationPenalty, spikeA, min_def]

lemma pen_spikeB : calcManipulationPenalty spikeB = 10 := by
  norm_num [calcManipulationPenalty, spikeB, min_def]

lemma calcContributorRatio_25_500 : calcContributorRatio 25 500 = 25 := by
  unfold calcContributorRatio linearNormalise
  rw [if_neg (by norm_num : ¬(500:ℝ) ≤ 0), if_neg (by norm_num : ¬(0.2:ℝ) ≤ 0)]
  have h : (25:ℝ) / 500 / 0.2 * 100 = 25 := by norm_num
  rw [h, max_eq_right (by norm_num : (0:ℝ) ≤ 25),
    min_eq_right (by norm_num : (25:ℝ) ≤ 100)]

lemma calcForkVelocity_80_500 : calcForkVelocity 80 500 = 40 := by
  unfold calcForkVelocity linearNormalise
  rw [if_neg (by norm_num : ¬(500:ℝ) ≤ 0), if_neg (by norm_num : ¬(0.4:ℝ) ≤ 0)]
  have h : (80:ℝ) / 500 / 0.4 * 100 = 40 := by norm_num
  rw [h, max_eq_right (by norm_num : (0:ℝ) ≤ 40),
    min_eq_right (by norm_num : (40:ℝ) ≤ 100)]

lemma calcCommitFrequency_zero : calcCommitFrequency 0 = 0 :=
  logNormalise_zero 50

lemma rawScore_spikeA : rawScore spikeA =
    calcStarVelocity 100 * 0.25 + 9 + calcMentionVelocity 5 12 * 0.15 := by
  unfold rawScore spikeA
  dsimp only
  rw [calcAcceleration_none_right, calcAcceleration_none_right,
    calcContributorRatio_25_500, calcForkVelocity_80_500, calcCommitFrequency_zero]
  ring

lemma rawScore_spikeB : rawScore spikeB =
    calcStarVelocity 101 * 0.25 + 9 + calcMentionVelocity 5 12 * 0.15 := by
  unfold rawScore spikeB
  dsimp only
  rw [calcAcceleration_none_right, calcAcceleration_none_right,
    calcContributorRatio_25_500, calcForkVelocity_80_500, calcCommitFrequency_zero]
  ring

lemma calcStarVelocity_100_ge : (66:ℝ) ≤ calcStarVelocity 100 := by
  unfold calcStarVelocity
  rw [logNormalise_eq (by norm_num) (by norm_num)]
  have h100 : (100:ℝ) + 1 = 101 := by norm_num
  have h1000 : (1000:ℝ) + 1 = 1001 := by norm_num
  rw [h100, h1000]
  have hpow : ((1001:ℝ)) ^ 33 ≤ 101 ^ 50 := by norm_num
  have hlog := mul_log_le_of_pow_le 33 50 (by norm_num) hpow
  have hlogpos : 0 < Real.log 1001 := Real.log_pos (by norm_num)
  rw [div_mul_eq_mul_div, le_div_iff hlogpos]
  push_cast at hlog
  linarith

lemma calcStarVelocity_101_sub : calcStarVelocity 101 - calcStarVelocity 100 ≤ 4 := by
  unfold calcStarVelocity
  rw [logNormalise_eq (by norm_num) (by norm_num),
    logNormalise_eq (by norm_num) (by norm_num)]
  have h100 : (100:ℝ) + 1 = 101 := by norm_num
  have h101 : (101:ℝ) + 1 = 102 := by norm_num
  have h1000 : (1000:ℝ) + 1 = 1001 := by norm_num
  rw [h100, h101, h1000]
  have hpow : ((102:ℝ)) ^ 25 ≤ (1001 * 101 ^ 25) ^ 1 := by norm_num
  have hlog := mul_log_le_of_pow_le 25 1 (by norm_num) hpow
  have hmul : Real.log (1001 * 101 ^ 25) = Real.log 1001 + 25 * Real.log 101 := by
    rw [Real.log_mul (by norm_num) (by positivity), Real.log_pow]
    norm_num
  rw [hmul] at hlog
  push_cast at hlog
  have hlogpos : 0 < Real.log 1001 := Real.log_pos (by norm_num)
  have h1 : Real.log 102 / Real.log 1001 * 100 - Real.log 101 / Real.log 1001 * 100 =
      (Real.log 102 * 100 - Real.log 101 * 100) / Real.log 1001 := by ring
  rw [h1, div_le_iff hlogpos]
  linarith

/-- C2 counterexample: on the reference base record with `commits_30d = 0`,
raising `stars_7d` from 100 to 101 crosses the third star-spike penalty
threshold and strictly lowers the score, so the score is not monotone in the
7-day star gain. -/
theorem calculateScore_not_monotone_stars7d :
    (calculateScore spikeB).score < (calculateScore spikeA).score := by
  have hmv0 : (0:ℝ) ≤ calcMentionVelocity 5 12 := logNormalise_nonneg _ _
  have hmv100 : calcMentionVelocity 5 12 ≤ 100 := logNormalise_le_100 _ _
  have hv100 := calcStarVelocity_100_ge
  have hdiff := calcStarVelocity_101_sub
  have hA0 := rawScore_nonneg spikeA
  have hA100 := rawScore_le_100 spikeA
  have hscoreA : (calculateScore spikeA).score = ((round (rawScore spikeA) : ℤ) : ℝ) := by
    show ((round (min 100 (max 0 (rawScore spikeA - calcManipulationPenalty spikeA))) : ℤ) : ℝ) = _
    rw [pen_spikeA, sub_zero, max_eq_right hA0, min_eq_right hA100]
  have h9 : (0:ℝ) ≤ rawScore spikeA - 9 := by
    rw [rawScore_spikeA]; linarith
  have hscoreB : (calculateScore spikeB).score ≤ ((round (rawScore spikeA - 9) : ℤ) : ℝ) := by
    show ((round (min 100 (max 0 (rawScore spikeB - calcManipulationPenalty spikeB))) : ℤ) : ℝ) ≤ _
    rw [pen_spikeB]
    apply round_cast_mono
    have h1 : rawScore spikeB - 10 ≤ rawScore spikeA - 9 := by
      rw [rawScore_spikeA, rawScore_spikeB]; linarith
    calc min 100 (max 0 (rawScore spikeB - 10)) ≤ max 0 (rawScore spikeB - 10) :=
          min_le_right _ _
      _ ≤ max 0 (rawScore spikeA - 9) := max_le_max le_rfl h1
      _ = rawScore spikeA - 9 := max_eq_right h9
  have hsub : round (rawScore spikeA - 9) = round (rawScore spikeA) - 9 := by
    simp
  rw [hscoreA]
  calc (calculateScore spikeB).score ≤ ((round (rawScore spikeA - 9) : ℤ) : ℝ) := hscoreB
    _ = ((round (rawScore spikeA) : ℤ) : ℝ) - 9 := by rw [hsub]; push_cast; ring
    _ < ((round (rawScore spikeA) : ℤ) : ℝ) := by linarith

lemma penalty_eq_contrib_of_commits {i : ScoreInputs} (hc : 5 ≤ i.commits_30d) :
    calcManipulationPenalty i =
      min 30 (if 1000 < i.stars ∧ i.contributors < 2 then (10:ℝ)
        else if 500 < i.stars ∧ i.contributors < 2 then 5 else 0) := by
  simp only [calcManipulationPenalty]
  have hA : ¬(500 < i.stars_7d ∧ i.commits_30d < 5) :=
    fun h => absurd h.2 (not_lt.mpr hc)
  have hB : ¬(200 < i.stars_7d ∧ i.commits_30d < 2) :=
    fun h => absurd h.2 (not_lt.mpr (by linarith))
  have hC : ¬(100 < i.stars_7d ∧ i.commits_30d = 0) := fun h => by
    have h2 := h.2
    rw [h2] at hc
    norm_num at hc
  rw [if_neg hA, if_neg hB, if_neg hC, zero_add]

lemma contribPenalty_anti {s c c' : ℝ} (h : c ≤ c') :
    (if 1000 < s ∧ c' < 2 then (10:ℝ) else if 500 < s ∧ c' < 2 then 5 else 0) ≤
      (if 1000 < s ∧ c < 2 then (10:ℝ) else if 500 < s ∧ c < 2 then 5 else 0) := by
  by_cases hc' : c' < 2
  · have hcc : c < 2 := lt_of_le_of_lt h hc'
    by_cases h1000 : 1000 < s
    · rw [if_pos ⟨h1000, hc'⟩, if_pos ⟨h1000, hcc⟩]
    · have hA : ¬(1000 < s ∧ c' < 2) := fun hh => h1000 hh.1
      have hB : ¬(1000 < s ∧ c < 2) := fun hh => h1000 hh.1
      rw [if_neg hA, if_neg hB]
      by_cases h500 : 500 < s
      · rw [if_pos ⟨h500, hc'⟩, if_pos ⟨h500, hcc⟩]
      · have hC : ¬(500 < s ∧ c' < 2) := fun hh => h500 hh.1
        have hD : ¬(500 < s ∧ c < 2) := fun hh => h500 hh.1
        rw [if_neg hC, if_neg hD]
  · have hA : ¬(1000 < s ∧ c' < 2) := fun hh => hc' hh.2
    have hB : ¬(500 < s ∧ c' < 2) := fun hh => hc' hh.2
    rw [if_neg hA, if_neg hB]
    split
    · norm_num
    · split
      · norm_num
      · norm_num

/-- C2 amended: the score is monotone in the 7-day star gain whenever
`commits_30d ≥ 5` (so that no star-spike penalty rule can apply at either
value); it is unconditionally monotone in the contributor count and in the
two forum-mention counts. -/
theorem calculateScore_monotone (i : ScoreInputs) :
    (∀ s7', i.stars_7d ≤ s7' → 5 ≤ i.commits_30d →
      (calculateScore i).score ≤ (calculateScore {i with stars_7d := s7'}).score) ∧
    (∀ c', i.contributors ≤ c' →
      (calculateScore i).score ≤ (calculateScore {i with contributors := c'}).score) ∧
    (∀ m7' m30', i.hn_mentions_7d ≤ m7' → i.hn_mentions_30d ≤ m30' →
      (calculateScore i).score ≤
        (calculateScore {i with hn_mentions_7d := m7', hn_mentions_30d := m30'}).score) := by
  refine ⟨?_, ?_, ?_⟩
  · intro s7' hs hc
    apply calculateScore_le_of
    · unfold rawScore
      dsimp only
      have h1 := calcStarVelocity_mono hs
      have h2 := calcAcceleration_mono_cur (p := i.stars_7d_prev) hs
      linarith
    · have hpen := penalty_eq_contrib_of_commits hc
      have hpen' :=
        penalty_eq_contrib_of_commits (i := {i with stars_7d := s7'}) hc
      rw [hpen, hpen']
  · intro c' hcc
    apply calculateScore_le_of
    · unfold rawScore
      dsimp only
      have h1 := calcContributorRatio_mono (s := i.stars) hcc
      linarith
    · simp only [calcManipulationPenalty]
      dsimp only
      exact min_le_min le_rfl (add_le_add le_rfl (contribPenalty_anti hcc))
  · intro m7' m30' h7 h30
    apply calculateScore_le_of
    · unfold rawScore
      dsimp only
      have h1 := calcMentionVelocity_mono h7 h30
      linarith
    · rfl

/-- The reference unit test's base record (src/lib/score.test.ts). -/
noncomputable def baseInputs : ScoreInputs :=
  ⟨500, 100, 300, 25, 80, 5, 12, 30, none, none, none⟩

/-- Witness for `calculateScore_monotone` at the reference base record. -/
theorem calculateScore_monotone_witness :
    (calculateScore baseInputs).score ≤
        (calculateScore {baseInputs with stars_7d := 500}).score ∧
      (calculateScore baseInputs).score ≤
        (calculateScore {baseInputs with contributors := 100}).score ∧
      (calculateScore baseInputs).score ≤
        (calculateScore
          {baseInputs with hn_mentions_7d := 20, hn_mentions_30d := 50}).score :=
  ⟨(calculateScore_monotone baseInputs).1 500 (by norm_num [baseInputs])
      (by norm_num [baseInputs]),
    (calculateScore_monotone baseInputs).2.1 100 (by norm_num [baseInputs]),
    (calculateScore_monotone baseInputs).2.2 20 50 (by norm_num [baseInputs])
      (by norm_num [baseInputs])⟩

/-! ### C3: the scenario-A ("OpenClaw at 9K stars") record -/

/-- The scenario-A record from src/lib/score.test.ts (`openclawEarly`). -/
noncomputable def openclawEarly : ScoreInputs :=
  ⟨9000, 3000, 8000, 450, 2700, 12, 25, 80, none, none, none⟩

lemma pen_openclaw : calcManipulationPenalty openclawEarly = 0 := by
  norm_num [calcManipulationPenalty, openclawEarly, min_def]

lemma mv_openclaw_eq :
    calcMentionVelocity 12 25 = Real.log 37.5 / Real.log 51 * 100 := by
  unfold calcMentionVelocity
  have h365 : (12:ℝ) * 2 + 25 * 0.5 = 36.5 := by norm_num
  rw [h365, logNormalise_eq (by norm_num) (by norm_num)]
  norm_num

lemma mv_openclaw_low : (260:ℝ)/3 ≤ Real.log 37.5 / Real.log 51 * 100 := by
  have hlog51 : 0 < Real.log 51 := Real.log_pos (by norm_num)
  have hpow : ((51:ℝ)) ^ 13 ≤ (37.5:ℝ) ^ 15 := by norm_num
  have hlog := mul_log_le_of_pow_le 13 15 (by norm_num) hpow
  push_cast at hlog
  rw [div_mul_eq_mul_div, le_div_iff hlog51]
  linarith

lemma mv_openclaw_high : Real.log 37.5 / Real.log 51 * 100 < (280:ℝ)/3 := by
  have hlog51 : 0 < Real.log 51 := Real.log_pos (by norm_num)
  have hpow : ((37.5:ℝ)) ^ 15 < (51:ℝ) ^ 14 := by norm_num
  have hlog := mul_log_lt_of_pow_lt 15 14 (by norm_num) hpow
  push_cast at hlog
  rw [div_mul_eq_mul_div, div_lt_iff hlog51]
  linarith

lemma rawScore_openclaw : rawScore openclawEarly =
    47.5 + 0.15 * (Real.log 37.5 / Real.log 51 * 100) := by
  unfold rawScore openclawEarly
  dsimp only
  rw [calcAcceleration_none_right, calcAcceleration_none_right]
  have hsv : calcStarVelocity 3000 = 100 := by
    unfold calcStarVelocity
    exact logNormalise_eq_100 (by norm_num) (by norm_num)
  have hcr : calcContributorRatio 450 9000 = 25 := by
    unfold calcContributorRatio linearNormalise
    rw [if_neg (by norm_num : ¬(9000:ℝ) ≤ 0), if_neg (by norm_num : ¬(0.2:ℝ) ≤ 0)]
    have h : (450:ℝ) / 9000 / 0.2 * 100 = 25 := by norm_num
    rw [h, max_eq_right (by norm_num : (0:ℝ) ≤ 25),
      min_eq_right (by norm_num : (25:ℝ) ≤ 100)]
  have hfv : calcForkVelocity 2700 9000 = 75 := by
    unfold calcForkVelocity linearNormalise
    rw [if_neg (by norm_num : ¬(9000:ℝ) ≤ 0), if_neg (by norm_num : ¬(0.4:ℝ) ≤ 0)]
    have h : (2700:ℝ) / 9000 / 0.4 * 100 = 75 := by norm_num
    rw [h, max_eq_right (by norm_num : (0:ℝ) ≤ 75),
      min_eq_right (by norm_num : (75:ℝ) ≤ 100)]
  have hcf : calcCommitFrequency 80 = 100 := by
    unfold calcCommitFrequency
    exact logNormalise_eq_100 (by norm_num) (by norm_num)
  rw [hsv, hcr, hfv, hcf, mv_openclaw_eq]
  ring

/-- C3 (code bug): on the scenario-A record the current weights yield a score
of exactly 61 — in particular not a score above 70, which the spec and the
repository's own "OpenClaw at 9K stars scores above 70" unit test demand. -/
theorem calculateScore_openclaw_eq_61 :
    (calculateScore openclawEarly).score = 61 ∧
      ¬ (70 < (calculateScore openclawEarly).score) := by
  have hlow := mv_openclaw_low
  have hhigh := mv_openclaw_high
  have hb1 : (60.5:ℝ) ≤ rawScore openclawEarly := by
    rw [rawScore_openclaw]; linarith
  have hb2 : rawScore openclawEarly < 61.5 := by
    rw [rawScore_openclaw]; linarith
  have hscore : (calculateScore openclawEarly).score =
      ((round (rawScore openclawEarly) : ℤ) : ℝ) := by
    show ((round (min 100 (max 0
      (rawScore openclawEarly - calcManipulationPenalty openclawEarly))) : ℤ) : ℝ) = _
    rw [pen_openclaw, sub_zero, max_eq_right (by linarith),
      min_eq_right (by linarith)]
  have hround : round (rawScore openclawEarly) = 61 := by
    rw [round_eq]
    rw [Int.floor_eq_iff]
    constructor
    · push_cast
      linarith
    · push_cast
      linarith
  refine ⟨?_, ?_⟩
  · rw [hscore, hround]
    norm_num
  · rw [hscore, hround]
    norm_num

/-! ### C4: the star-spike manipulation scenario -/

lemma calcStarVelocity_600_sub :
    calcStarVelocity 600 - calcStarVelocity 100 ≤ 36 := by
  unfold calcStarVelocity
  rw [logNormalise_eq (by norm_num) (by norm_num),
    logNormalise_eq (by norm_num) (by norm_num)]
  have h100 : (100:ℝ) + 1 = 101 := by norm_num
  have h600 : (600:ℝ) + 1 = 601 := by norm_num
  have h1000 : (1000:ℝ) + 1 = 1001 := by norm_num
  rw [h100, h600, h1000]
  have hpow : ((601:ℝ)) ^ 25 ≤ (101 ^ 25 * 1001 ^ 9) ^ 1 := by norm_num
  have hlog := mul_log_le_of_pow_le 25 1 (by norm_num) hpow
  have hmul : Real.log ((101:ℝ) ^ 25 * 1001 ^ 9) =
      25 * Real.log 101 + 9 * Real.log 1001 := by
    rw [Real.log_mul (by positivity) (by positivity), Real.log_pow, Real.log_pow]
    norm_num
  rw [hmul] at hlog
  push_cast at hlog
  have hlogpos : 0 < Real.log 1001 := Real.log_pos (by norm_num)
  have h1 : Real.log 601 / Real.log 1001 * 100 - Real.log 101 / Real.log 1001 * 100 =
      (Real.log 601 * 100 - Real.log 101 * 100) / Real.log 1001 := by ring
  rw [h1, div_le_iff hlogpos]
  linarith

lemma contribPen_nonneg (i : ScoreInputs) :
    0 ≤ (if 1000 < i.stars ∧ i.contributors < 2 then (10:ℝ)
      else if 500 < i.stars ∧ i.contributors < 2 then 5 else 0) := by
  split
  · norm_num
  · split
    · norm_num
    · norm_num

lemma contribPen_le_10 (i : ScoreInputs) :
    (if 1000 < i.stars ∧ i.contributors < 2 then (10:ℝ)
      else if 500 < i.stars ∧ i.contributors < 2 then 5 else 0) ≤ 10 := by
  split
  · norm_num
  · split
    · norm_num
    · norm_num

lemma pen_man_eq (i : ScoreInputs) :
    calcManipulationPenalty {i with stars_7d := 600, commits_30d := 0} =
      min 30 (20 + (if 1000 < i.stars ∧ i.contributors < 2 then (10:ℝ)
        else if 500 < i.stars ∧ i.contributors < 2 then 5 else 0)) := by
  simp only [calcManipulationPenalty]
  dsimp only
  rw [if_pos (by norm_num : (500:ℝ) < 600 ∧ (0:ℝ) < 5)]

lemma pen_norm_eq (i : ScoreInputs) :
    calcManipulationPenalty {i with stars_7d := 100, commits_30d := 30} =
      min 30 (if 1000 < i.stars ∧ i.contributors < 2 then (10:ℝ)
        else if 500 < i.stars ∧ i.contributors < 2 then 5 else 0) := by
  simp only [calcManipulationPenalty]
  dsimp only
  have hA : ¬((500:ℝ) < 100 ∧ (30:ℝ) < 5) := by norm_num
  have hB : ¬((200:ℝ) < 100 ∧ (30:ℝ) < 2) := by norm_num
  have hC : ¬((100:ℝ) < 100 ∧ (30:ℝ) = 0) := by norm_num
  rw [if_neg hA, if_neg hB, if_neg hC, zero_add]

/-- C4: for every metric record, setting `stars_7d := 600` and
`commits_30d := 0` incurs a strictly positive manipulation penalty, and the
resulting score is strictly below that of the otherwise-identical record with
the reference values `stars_7d := 100` and `commits_30d := 30`. -/
theorem calculateScore_spike_penalised (i : ScoreInputs) :
    0 < (calculateScore
        {i with stars_7d := 600, commits_30d := 0}).breakdown.manipulation_penalty ∧
      (calculateScore {i with stars_7d := 600, commits_30d := 0}).score <
        (calculateScore {i with stars_7d := 100, commits_30d := 30}).score := by
  have hp0 := contribPen_nonneg i
  have hp10 := contribPen_le_10 i
  have hpenm : calcManipulationPenalty {i with stars_7d := 600, commits_30d := 0} =
      20 + (if 1000 < i.stars ∧ i.contributors < 2 then (10:ℝ)
        else if 500 < i.stars ∧ i.contributors < 2 then 5 else 0) := by
    rw [pen_man_eq, min_eq_right (by linarith)]
  have hpenn : calcManipulationPenalty {i with stars_7d := 100, commits_30d := 30} =
      (if 1000 < i.stars ∧ i.contributors < 2 then (10:ℝ)
        else if 500 < i.stars ∧ i.contributors < 2 then 5 else 0) := by
    rw [pen_norm_eq, min_eq_right (by linarith)]
  have hrawm : rawScore {i with stars_7d := 600, commits_30d := 0} =
      calcStarVelocity 600 * 0.25 +
      calcContributorRatio i.contributors i.stars * 0.20 +
      calcForkVelocity i.forks i.stars * 0.10 +
      calcMentionVelocity i.hn_mentions_7d i.hn_mentions_30d * 0.15 +
      calcCommitFrequency 0 * 0.10 +
      calcAcceleration (some 600) i.stars_7d_prev * 0.10 +
      calcAcceleration i.forks_7d i.forks_7d_prev * 0.10 := by
    unfold rawScore
    dsimp only
  have hrawn : rawScore {i with stars_7d := 100, commits_30d := 30} =
      calcStarVelocity 100 * 0.25 +
      calcContributorRatio i.contributors i.stars * 0.20 +
      calcForkVelocity i.forks i.stars * 0.10 +
      calcMentionVelocity i.hn_mentions_7d i.hn_mentions_30d * 0.15 +
      calcCommitFrequency 30 * 0.10 +
      calcAcceleration (some 100) i.stars_7d_prev * 0.10 +
      calcAcceleration i.forks_7d i.forks_7d_prev * 0.10 := by
    unfold rawScore
    dsimp only
  have hv600 := calcStarVelocity_600_sub
  have hv100 := calcStarVelocity_100_ge
  have hcf0 : calcCommitFrequency 0 = 0 := calcCommitFrequency_zero
  have hcf30 : (0:ℝ) ≤ calcCommitFrequency 30 := logNormalise_nonneg _ _
  have hsa600 : calcAcceleration (some 600) i.stars_7d_prev ≤ 100 :=
    calcAcceleration_le_100 _ _
  have hsa100 : (0:ℝ) ≤ calcAcceleration (some 100) i.stars_7d_prev :=
    calcAcceleration_nonneg _ _
  have hcr0 := calcContributorRatio_nonneg i.contributors i.stars
  have hfv0 := calcForkVelocity_nonneg i.forks i.stars
  have hmv0 : (0:ℝ) ≤ calcMentionVelocity i.hn_mentions_7d i.hn_mentions_30d :=
    logNormalise_nonneg _ _
  have hfa0 : (0:ℝ) ≤ calcAcceleration i.forks_7d i.forks_7d_prev :=
    calcAcceleration_nonneg _ _
  have hraw100 := rawScore_le_100 {i with stars_7d := 100, commits_30d := 30}
  -- abbreviate the two clamped values
  have hkey : rawScore {i with stars_7d := 600, commits_30d := 0} -
      calcManipulationPenalty {i with stars_7d := 600, commits_30d := 0} ≤
      (rawScore {i with stars_7d := 100, commits_30d := 30} -
        calcManipulationPenalty {i with stars_7d := 100, commits_30d := 30}) - 1 := by
    rw [hpenm, hpenn, hrawm, hrawn, hcf0]
    linarith
  have hnormval1 : (1:ℝ) ≤ rawScore {i with stars_7d := 100, commits_30d := 30} -
      calcManipulationPenalty {i with stars_7d := 100, commits_30d := 30} := by
    rw [hpenn, hrawn]
    linarith
  have hnormval100 : rawScore {i with stars_7d := 100, commits_30d := 30} -
      calcManipulationPenalty {i with stars_7d := 100, commits_30d := 30} ≤ 100 := by
    rw [hpenn]
    linarith
  refine ⟨?_, ?_⟩
  · show (0:ℝ) < calcManipulationPenalty {i with stars_7d := 600, commits_30d := 0}
    rw [hpenm]
    linarith
  · have hnscore : (calculateScore {i with stars_7d := 100, commits_30d := 30}).score =
        ((round (rawScore {i with stars_7d := 100, commits_30d := 30} -
          calcManipulationPenalty {i with stars_7d := 100, commits_30d := 30}) : ℤ) : ℝ) := by
      show ((round (min 100 (max 0 _)) : ℤ) : ℝ) = _
      rw [max_eq_right (by linarith), min_eq_right (by linarith)]
    have hmscore : (calculateScore {i with stars_7d := 600, commits_30d := 0}).score ≤
        ((round ((rawScore {i with stars_7d := 100, commits_30d := 30} -
          calcManipulationPenalty {i with stars_7d := 100, commits_30d := 30}) - 1) : ℤ) : ℝ) := by
      show ((round (min 100 (max 0 _)) : ℤ) : ℝ) ≤ _
      apply round_cast_mono
      calc min 100 (max 0 (rawScore {i with stars_7d := 600, commits_30d := 0} -
            calcManipulationPenalty {i with stars_7d := 600, commits_30d := 0})) ≤
          max 0 (rawScore {i with stars_7d := 600, commits_30d := 0} -
            calcManipulationPenalty {i with stars_7d := 600, commits_30d := 0}) :=
            min_le_right _ _
        _ ≤ max 0 ((rawScore {i with stars_7d := 100, commits_30d := 30} -
            calcManipulationPenalty {i with stars_7d := 100, commits_30d := 30}) - 1) :=
            max_le_max le_rfl hkey
        _ = (rawScore {i with stars_7d := 100, commits_30d := 30} -
            calcManipulationPenalty {i with stars_7d := 100, commits_30d := 30}) - 1 :=
            max_eq_right (by linarith)
    have hsub : round ((rawScore {i with stars_7d := 100, commits_30d := 30} -
        calcManipulationPenalty {i with stars_7d := 100, commits_30d := 30}) - 1) =
        round (rawScore {i with stars_7d := 100, commits_30d := 30} -
          calcManipulationPenalty {i with stars_7d := 100, commits_30d := 30}) - 1 := by
      simp
    rw [hnscore]
    calc (calculateScore {i with stars_7d := 600, commits_30d := 0}).score ≤ _ := hmscore
      _ = ((round (rawScore {i with stars_7d := 100, commits_30d := 30} -
          calcManipulationPenalty {i with stars_7d := 100, commits_30d := 30}) : ℤ) : ℝ) - 1 := by
          rw [hsub]; push_cast; ring
      _ < ((round (rawScore {i with stars_7d := 100, commits_30d := 30} -
          calcManipulationPenalty {i with stars_7d := 100, commits_30d := 30}) : ℤ) : ℝ) := by
          linarith

/-! ### C5: the enrichment re-score policy of `processRepo` -/

/-- A cached row of the `enrichments` table: narrative text plus score and
score breakdown (the breakdown JSON is abstracted to an integer token). -/
structure EnrichmentRow where
  summary : String
  early_signal_score : Int
  score_breakdown : Int
deriving DecidableEq

/-- The `needsEnrichment` condition of `processRepo`
(src/scripts/pipeline.ts): no cached row, or the cached score differs from
the newly computed score by more than 10. -/
def needsEnrichment (existing : Option Int) (score : Int) : Bool :=
  match existing with
  | none => true
  | some cached => decide (10 < (cached - score).natAbs)

/-- `enrichRepo` (src/lib/enrichment.ts) as a transformer of the cached row:
called without `forceRefresh`, it first re-reads the cache and, if any row
exists, returns it without calling the model and without writing; otherwise
it calls the model (`llmOut`) and upserts the full row. The Boolean records
whether the external model was invoked. -/
def enrichRepo (store : Option EnrichmentRow) (llmOut : String)
    (score breakdown : Int) (forceRefresh : Bool) : Bool × Option EnrichmentRow :=
  match forceRefresh, store with
  | false, some row => (false, some row)
  | _, _ => (true, some ⟨llmOut, score, breakdown⟩)

/-- The enrichment/re-score step of `processRepo` (src/scripts/pipeline.ts):
branch on `needsEnrichment`; the stale branch calls `enrichRepo` with the
default `forceRefresh = false`, the fresh branch updates only score,
breakdown (and timestamp) on the existing row. -/
def processRepoEnrich (store : Option EnrichmentRow) (llmOut : String)
    (score breakdown : Int) : Bool × Option EnrichmentRow :=
  if needsEnrichment (store.map EnrichmentRow.early_signal_score) score then
    enrichRepo store llmOut score breakdown false
  else
    (false, store.map fun row =>
      { row with early_signal_score := score, score_breakdown := breakdown })

/-- C5 (code bug): with a cached row of score 50 and a new score of 80 the
drift exceeds 10, so the claim requires the enrichment collaborator to run
and the row to be rewritten with the new score; instead `enrichRepo`'s cache
check short-circuits — the model is not invoked and the stored row, stale
score included, is left unchanged. For contrast: a fresh cache (drift ≤ 10)
does get its score and breakdown overwritten without a model call, and a
missing cache does invoke the model. -/
theorem processRepoEnrich_stale_short_circuits :
    processRepoEnrich (some ⟨"cached text", 50, 1⟩) "new text" 80 2 =
        (false, some ⟨"cached text", 50, 1⟩) ∧
      processRepoEnrich (some ⟨"cached text", 50, 1⟩) "new text" 55 2 =
        (false, some ⟨"cached text", 55, 2⟩) ∧
      processRepoEnrich none "new text" 80 2 =
        (true, some ⟨"new text", 80, 2⟩) :=
  ⟨rfl, rfl, rfl⟩

/-! ### C6: idempotence of snapshot writes -/

/-- A `repo_snapshots` row (see the schema and src/scripts/pipeline.ts). -/
structure SnapshotRow where
  repo_id : Nat
  snapshot_date : Nat
  stars : Int
  forks : Int
  stars_7d : Int
deriving DecidableEq

/-- The conflict key of a snapshot row: `(repo_id, snapshot_date)`. -/
def snapKey (r : SnapshotRow) : Nat × Nat := (r.repo_id, r.snapshot_date)

/-- Whether the store already holds a row with key `k`. -/
def keyPresent (store : List SnapshotRow) (k : Nat × Nat) : Bool :=
  store.any fun s => snapKey s == k

/-- The snapshot upsert with `onConflict: repo_id,snapshot_date` and
`ignoreDuplicates: true` (src/scripts/pipeline.ts and the snapshot script):
a write for an existing key is a no-op, otherwise the row is inserted. -/
def upsertSnapshot (store : List SnapshotRow) (r : SnapshotRow) : List SnapshotRow :=
  if keyPresent store (snapKey r) then store else store ++ [r]

/-- All snapshot writes of one pipeline run, in order. -/
def runSnapshots (store : List SnapshotRow) (rows : List SnapshotRow) :
    List SnapshotRow :=
  rows.foldl upsertSnapshot store

/-- At most one row per `(repo_id, snapshot_date)` key. -/
def KeyUnique (store : List SnapshotRow) : Prop :=
  store.Pairwise fun a b => snapKey a ≠ snapKey b

lemma keyPresent_upsert {store : List SnapshotRow} {k : Nat × Nat}
    (r : SnapshotRow) (h : keyPresent store k = true) :
    keyPresent (upsertSnapshot store r) k = true := by
  unfold upsertSnapshot
  split
  · exact h
  · unfold keyPresent at h ⊢
    rw [List.any_append]
    simp only [h, Bool.true_or]

lemma keyPresent_upsert_self (store : List SnapshotRow) (r : SnapshotRow) :
    keyPresent (upsertSnapshot store r) (snapKey r) = true := by
  unfold upsertSnapshot
  split
  · rename_i h
    exact h
  · unfold keyPresent
    rw [List.any_append]
    simp

lemma runSnapshots_nil (store : List SnapshotRow) : runSnapshots store [] = store := rfl

lemma runSnapshots_cons (store : List SnapshotRow) (r : SnapshotRow)
    (rest : List SnapshotRow) :
    runSnapshots store (r :: rest) = runSnapshots (upsertSnapshot store r) rest := rfl

lemma keyPresent_runSnapshots {store : List SnapshotRow} {k : Nat × Nat}
    (rows : List SnapshotRow) (h : keyPresent store k = true) :
    keyPresent (runSnapshots store rows) k = true := by
  induction rows generalizing store with
  | nil => exact h
  | cons a rest ih =>
    rw [runSnapshots_cons]
    exact ih (keyPresent_upsert a h)

lemma keyPresent_run_mem {store : List SnapshotRow} {rows : List SnapshotRow}
    {r : SnapshotRow} (h : r ∈ rows) :
    keyPresent (runSnapshots store rows) (snapKey r) = true := by
  induction rows generalizing store with
  | nil => cases h
  | cons a rest ih =>
    rw [runSnapshots_cons]
    rcases List.mem_cons.mp h with rfl | hmem
    · exact keyPresent_runSnapshots rest (keyPresent_upsert_self store r)
    · exact ih hmem

lemma runSnapshots_noop {store : List SnapshotRow} {rows : List SnapshotRow}
    (h : ∀ r ∈ rows, keyPresent store (snapKey r) = true) :
    runSnapshots store rows = store := by
  induction rows generalizing store with
  | nil => rfl
  | cons a rest ih =>
    rw [runSnapshots_cons]
    have ha : upsertSnapshot store a = store := by
      unfold upsertSnapshot
      rw [if_pos (h a (List.mem_cons_self a rest))]
    rw [ha]
    exact ih fun r hr => h r (List.mem_cons_of_mem a hr)

/-- C6: a snapshot write for an existing `(repository, date)` key leaves the
store unchanged; the at-most-one-row-per-key invariant is preserved by every
write; and replaying the same run's snapshot writes a second time leaves the
store exactly as after the first run. -/
theorem snapshot_writes_idempotent :
    (∀ (store : List SnapshotRow) (r : SnapshotRow),
      keyPresent store (snapKey r) = true → upsertSnapshot store r = store) ∧
    (∀ (store : List SnapshotRow) (r : SnapshotRow),
      KeyUnique store → KeyUnique (upsertSnapshot store r)) ∧
    (∀ (store rows : List SnapshotRow),
      runSnapshots (runSnapshots store rows) rows = runSnapshots store rows) := by
  refine ⟨?_, ?_, ?_⟩
  · intro store r h
    unfold upsertSnapshot
    rw [if_pos h]
  · intro store r h
    unfold upsertSnapshot
    split
    · exact h
    · rename_i hany
      unfold KeyUnique
      rw [List.pairwise_append]
      refine ⟨h, List.pairwise_singleton _ _, ?_⟩
      intro a ha b hb
      rw [List.mem_singleton] at hb
      subst hb
      intro heq
      apply hany
      unfold keyPresent
      rw [List.any_eq_true]
      exact ⟨a, ha, beq_iff_eq.mpr heq⟩
  · intro store rows
    exact runSnapshots_noop fun r hr => keyPresent_run_mem hr

/-- Witness for `snapshot_writes_idempotent` on concrete stores. -/
theorem snapshot_writes_idempotent_witness :
    upsertSnapshot [⟨1, 20260101, 5, 2, 3⟩] ⟨1, 20260101, 9, 9, 9⟩ =
        [⟨1, 20260101, 5, 2, 3⟩] ∧
      KeyUnique (upsertSnapshot [⟨1, 20260101, 5, 2, 3⟩] ⟨2, 20260101, 1, 1, 1⟩) :=
  ⟨snapshot_writes_idempotent.1 [⟨1, 20260101, 5, 2, 3⟩] ⟨1, 20260101, 9, 9, 9⟩
      (by decide),
    snapshot_writes_idempotent.2.1 [⟨1, 20260101, 5, 2, 3⟩] ⟨2, 20260101, 1, 1, 1⟩
      (by unfold KeyUnique; exact List.pairwise_singleton _ _)⟩

/-! ### C7: per-candidate sub-fetch failure handling in `processRepo` -/

/-- Outcome of one underlying HTTP call: a decoded payload, a non-ok HTTP
response, or a thrown error (network failure, rejected promise). -/
inductive FetchOutcome (α : Type) where
  | ok (value : α)
  | httpError
  | thrown
deriving DecidableEq

/-- `getStarVelocity`'s failure handling (src/lib/queries.ts): the page loop
sits inside `try`/`catch`, so any failure — thrown or HTTP — degrades to
`(0, 0)`. -/
def starVelocityResult (o : FetchOutcome (Nat × Nat)) : Nat × Nat :=
  match o with
  | .ok v => v
  | _ => (0, 0)

/-- `getContributorCount` (src/lib/queries.ts): the whole body is inside
`try`/`catch`; any failure returns 0. -/
def contributorCountResult (o : FetchOutcome Nat) : Nat :=
  match o with
  | .ok v => v
  | _ => 0

/-- `getCommitFrequency` (src/lib/queries.ts): non-ok responses return 0 and
the surrounding `catch` returns 0. -/
def commitFrequencyResult (o : FetchOutcome Nat) : Nat :=
  match o with
  | .ok v => v
  | _ => 0

/-- `fetchHNMentions` (src/lib/hn.ts): a non-ok response returns 0, but there
is no `catch` — a thrown error (e.g. network failure) propagates. -/
def fetchHNMentionsResult (o : FetchOutcome Nat) : Except Unit Nat :=
  match o with
  | .ok v => .ok v
  | .httpError => .ok 0
  | .thrown => .error ()

/-- `getHNMentions` (src/lib/hn.ts): `Promise.all` of the 7-day and 30-day
queries; either one rejecting rejects the pair. -/
def getHNMentionsResult (o7 o30 : FetchOutcome Nat) : Except Unit (Nat × Nat) :=
  match fetchHNMentionsResult o7, fetchHNMentionsResult o30 with
  | .ok a, .ok b => .ok (a, b)
  | _, _ => .error ()

/-- The metric record `processRepo` assembles for scoring. -/
structure GatheredMetrics where
  stars_7d : Nat
  stars_30d : Nat
  contributors : Nat
  commits_30d : Nat
  hn_mentions_7d : Nat
  hn_mentions_30d : Nat
deriving DecidableEq

/-- The metric-gathering `Promise.all` of `processRepo`
(src/scripts/pipeline.ts): if any joined sub-fetch rejects, the enclosing
`try`/`catch` logs the failure and returns — the candidate is skipped
(`error`). Otherwise the candidate proceeds to scoring and persistence with
the gathered metrics. -/
def processRepoMetrics (sv : FetchOutcome (Nat × Nat))
    (cc cf o7 o30 : FetchOutcome Nat) : Except Unit GatheredMetrics :=
  match getHNMentionsResult o7 o30 with
  | .error _ => .error ()
  | .ok m =>
      .ok ⟨(starVelocityResult sv).1, (starVelocityResult sv).2,
        contributorCountResult cc, commitFrequencyResult cf, m.1, m.2⟩

/-- C7 counterexample: every GitHub sub-fetch succeeds but the 7-day
forum-mention query throws (network failure); `processRepo` then skips the
candidate entirely instead of degrading that one metric to zero. -/
theorem processRepoMetrics_drops_candidate :
    processRepoMetrics (.ok (5, 9)) (.ok 3) (.ok 7) .thrown (.ok 2) =
      .error () := rfl

/-- C7 amended: failures of the star-velocity, contributor-count and
commit-frequency sub-fetches (thrown or HTTP-level) and HTTP-level failures
of the forum-mention queries degrade the affected metric to zero while the
candidate is still scored and persisted; only a thrown forum-mention failure
makes the whole candidate be skipped. -/
theorem processRepoMetrics_degrades (sv : FetchOutcome (Nat × Nat))
    (cc cf o7 o30 : FetchOutcome Nat)
    (h7 : o7 ≠ .thrown) (h30 : o30 ≠ .thrown) :
    ∃ m : GatheredMetrics, processRepoMetrics sv cc cf o7 o30 = .ok m ∧
      (sv ≠ .ok (m.stars_7d, m.stars_30d) → m.stars_7d = 0 ∧ m.stars_30d = 0) ∧
      (cc ≠ .ok m.contributors → m.contributors = 0) ∧
      (cf ≠ .ok m.commits_30d → m.commits_30d = 0) ∧
      (o7 = .httpError → m.hn_mentions_7d = 0) ∧
      (o30 = .httpError → m.hn_mentions_30d = 0) := by
  have hsv : ∀ h : sv ≠ .ok (starVelocityResult sv),
      (starVelocityResult sv).1 = 0 ∧ (starVelocityResult sv).2 = 0 := by
    intro h
    cases sv with
    | ok v => exact absurd rfl h
    | httpError => exact ⟨rfl, rfl⟩
    | thrown => exact ⟨rfl, rfl⟩
  have hcc : ∀ _ : cc ≠ .ok (contributorCountResult cc),
      contributorCountResult cc = 0 := by
    intro h
    cases cc with
    | ok v => exact absurd rfl h
    | httpError => rfl
    | thrown => rfl
  have hcf : ∀ _ : cf ≠ .ok (commitFrequencyResult cf),
      commitFrequencyResult cf = 0 := by
    intro h
    cases cf with
    | ok v => exact absurd rfl h
    | httpError => rfl
    | thrown => rfl
  cases o7 with
  | thrown => exact absurd rfl h7
  | ok v7 =>
    cases o30 with
    | thrown => exact absurd rfl h30
    | ok v30 =>
      refine ⟨_, rfl, ?_, hcc, hcf, ?_, ?_⟩
      · intro h
        exact hsv h
      · intro h
        exact FetchOutcome.noConfusion h
      · intro h
        exact FetchOutcome.noConfusion h
    | httpError =>
      refine ⟨_, rfl, ?_, hcc, hcf, ?_, ?_⟩
      · intro h
        exact hsv h
      · intro h
        exact FetchOutcome.noConfusion h
      · intro _
        rfl
  | httpError =>
    cases o30 with
    | thrown => exact absurd rfl h30
    | ok v30 =>
      refine ⟨_, rfl, ?_, hcc, hcf, ?_, ?_⟩
      · intro h
        exact hsv h
      · intro _
        rfl
      · intro h
        exact FetchOutcome.noConfusion h
    | httpError =>
      refine ⟨_, rfl, ?_, hcc, hcf, ?_, ?_⟩
      · intro h
        exact hsv h
      · intro _
        rfl
      · intro _
        rfl

/-- Witness for `processRepoMetrics_degrades`: contributor fetch HTTP-fails,
commit fetch throws, forum 30-day query HTTP-fails — the candidate is still
processed. -/
theorem processRepoMetrics_degrades_witness :
    (processRepoMetrics (.ok (5, 9)) .httpError .thrown (.ok 4) .httpError).isOk
      = true := by
  obtain ⟨m, hm, -⟩ :=
    processRepoMetrics_degrades (.ok (5, 9)) .httpError .thrown (.ok 4) .httpError
      (fun h => FetchOutcome.noConfusion h) (fun h => FetchOutcome.noConfusion h)
  rw [hm]
  rfl

/-! ### C8: handling of 403 quota-exhausted responses -/

/-- The error classes thrown by `githubFetch` (src/lib/queries.ts). -/
inductive FetchError where
  | rateLimited
  | notFound
  | apiError
deriving DecidableEq

/-- `githubFetch` (src/lib/queries.ts): a 403 whose `X-RateLimit-Remaining`
header is the string "0" throws a rate-limit error immediately — no cooldown
and no retry; a 404 throws not-found; any other non-2xx status throws a
generic API error; otherwise the decoded payload is returned. -/
def githubFetch (status : Nat) (remaining : Option String) (payload : Int) :
    Except FetchError Int :=
  if status = 403 ∧ remaining = some "0" then .error .rateLimited
  else if status = 404 then .error .notFound
  else if ¬ (200 ≤ status ∧ status < 300) then .error .apiError
  else .ok payload

/-- One response to the daily commit-search request
(src/scripts/search-commits.ts): a 403 with zero remaining and an optional
reset header, some other failing status, or a success carrying a count. -/
inductive SCResponse where
  | rateLimited (reset : Option Int)
  | failStatus (status : Nat)
  | success (count : Nat)
deriving DecidableEq

/-- Trace of fetching one date in src/scripts/search-commits.ts: how many
requests were issued, the waits slept (ms), and the imported count if any. -/
structure SCRun where
  attempts : Nat
  waits : List Int
  result : Option Nat
deriving DecidableEq

/-- The per-date loop of src/scripts/search-commits.ts, driven by the stream
of responses the API returns for this date: a 403 quota-exhausted response
sleeps `max(reset*1000 - now, 1000)` ms — or the fixed 60000 ms fallback when
the reset header is missing — and retries the same date; any other failing
status gives the date up; a success imports the count. -/
def searchCommitsFetch (now : Int) : List SCResponse → SCRun
  | [] => ⟨0, [], none⟩
  | .rateLimited reset :: rest =>
      let prev := searchCommitsFetch now rest
      ⟨prev.attempts + 1,
        max (match reset with | some r => r * 1000 - now | none => 60000) 1000 ::
          prev.waits,
        prev.result⟩
  | .failStatus _ :: _ => ⟨1, [], none⟩
  | .success n :: _ => ⟨1, [], some n⟩

/-- Per-repo action of the snapshot script (the light-snapshot source file,
`main`): 404 skips the repo as deleted; a 403 with zero remaining retries the
same repo only when a positive reset timestamp is available — with no usable
reset header the branch falls through and the repo is skipped as an error,
with no cooldown and no retry; other non-2xx statuses are also skipped. -/
inductive SnapshotAction where
  | sleepRetry (resetAt : Int)
  | skipDeleted
  | skipError
  | process
deriving DecidableEq

/-- The status handling of the snapshot script's per-repo loop
(`response.status` checks in order: 404, then 403 with zero remaining and a
positive reset, then any other non-ok status). -/
def snapshotClassify (status : Nat) (remaining resetAt : Int) : SnapshotAction :=
  if status = 404 then .skipDeleted
  else if status = 403 ∧ remaining = 0 ∧ 0 < resetAt then .sleepRetry resetAt
  else if ¬ (200 ≤ status ∧ status < 300) then .skipError
  else .process

/-- C8 counterexample: two consecutive bare 403 quota-exhausted responses
(no reset header) are each followed by a 60-second cooldown and a retry of
the same request — the request is retried twice, not "exactly once", and the
shared `githubFetch` helper does not wait or retry at all but throws on the
first such response. -/
theorem rateLimit_not_retried_once :
    searchCommitsFetch 0
        [.rateLimited none, .rateLimited none, .success 7] =
        ⟨3, [60000, 60000], some 7⟩ ∧
      githubFetch 403 (some "0") 5 = .error .rateLimited := by
  constructor
  · rfl
  · rfl

/-- C8 amended: on a 403 quota-exhausted response with no reset header the
commit-search loop sleeps the fixed 60-second fallback and retries the same
request, and it does so for every further such response — k consecutive
bare quota-exhausted responses produce k cooldowns of 60000 ms and k + 1
attempts, with no give-up on that path; the shared `githubFetch` helper
instead throws a rate-limit error at once, with no cooldown and no retry;
and the snapshot script skips such an item outright (no wait, no retry). -/
theorem rateLimit_cooldown_behaviour :
    (∀ (now : Int) (k : Nat) (n : Nat),
      searchCommitsFetch now
          (List.replicate k (.rateLimited none) ++ [.success n]) =
        ⟨k + 1, List.replicate k 60000, some n⟩) ∧
    (∀ (remaining : Option String) (payload : Int),
      githubFetch 403 remaining payload =
        if remaining = some "0" then .error .rateLimited
        else .error .apiError) ∧
    snapshotClassify 403 0 0 = .skipError := by
  refine ⟨?_, ?_, by decide⟩
  · intro now k n
    induction k with
    | zero => rfl
    | succ k ih =>
      rw [List.replicate_succ, List.cons_append]
      show (⟨(searchCommitsFetch now
          (List.replicate k (.rateLimited none) ++ [.success n])).attempts + 1,
        max 60000 1000 :: (searchCommitsFetch now
          (List.replicate k (.rateLimited none) ++ [.success n])).waits,
        (searchCommitsFetch now
          (List.replicate k (.rateLimited none) ++ [.success n])).result⟩ : SCRun) = _
      rw [ih, List.replicate_succ]
      norm_num
  · intro remaining payload
    by_cases h : remaining = some "0"
    · rw [if_pos h]
      unfold githubFetch
      rw [if_pos ⟨rfl, h⟩]
    · rw [if_neg h]
      unfold githubFetch
      rw [if_neg (fun hh => h hh.2), if_neg (by norm_num : ¬(403 = 404)),
        if_pos (by norm_num : ¬(200 ≤ 403 ∧ 403 < 300))]

/-! ### C9: the per-hour archive aggregation -/

/-- A decoded GH Archive event: `{type, repo: {id, name}}`
(the archive-ingestion source file). -/
structure GHArchiveEvent where
  type : String
  repo_id : Nat
  repo_name : String
deriving DecidableEq

/-- One line of an archive hour after `JSON.parse`: `none` when the parse
throws (the per-line catch skips it), `some e` for a decoded event. -/
abbrev ArchiveLine := Option GHArchiveEvent

/-- The `starCounts.get`/`set` increment of the consumer fold: bump the
counter of `rid`, creating the entry (with the first-seen name) if absent. -/
def bumpStar : List (Nat × String × Nat) → Nat → String → List (Nat × String × Nat)
  | [], rid, name => [(rid, name, 1)]
  | (k, n, c) :: rest, rid, name =>
      if k = rid then (k, n, c + 1) :: rest
      else (k, n, c) :: bumpStar rest rid name

/-- Per-line step of the consumer fold (the archive-ingestion source file):
only well-formed lines whose type is `WatchEvent` touch the map. -/
def processLine (m : List (Nat × String × Nat)) : ArchiveLine →
    List (Nat × String × Nat)
  | none => m
  | some e => if e.type = "WatchEvent" then bumpStar m e.repo_id e.repo_name else m

/-- Folding one archive hour's decoded lines into the running map. -/
def processHour (m : List (Nat × String × Nat)) (lines : List ArchiveLine) :
    List (Nat × String × Nat) :=
  lines.foldl processLine m

/-- The aggregated star count recorded for repository `rid` (0 if absent). -/
def starCount : List (Nat × String × Nat) → Nat → Nat
  | [], _ => 0
  | (k, _, c) :: rest, rid => if k = rid then c else starCount rest rid

/-- Whether a line is a well-formed star-added event for repository `rid`. -/
def isStarFor (rid : Nat) : ArchiveLine → Bool
  | none => false
  | some e => e.type == "WatchEvent" && e.repo_id == rid

lemma starCount_bumpStar_self (m : List (Nat × String × Nat)) (rid : Nat)
    (name : String) : starCount (bumpStar m rid name) rid = starCount m rid + 1 := by
  induction m with
  | nil => simp [bumpStar, starCount]
  | cons entry rest ih =>
    obtain ⟨k, n, c⟩ := entry
    by_cases hk : k = rid
    · subst hk
      simp [bumpStar, starCount]
    · simp only [bumpStar, starCount, if_neg hk]
      exact ih

lemma starCount_bumpStar_ne (m : List (Nat × String × Nat)) {rid' rid : Nat}
    (name : String) (h : rid' ≠ rid) :
    starCount (bumpStar m rid' name) rid = starCount m rid := by
  induction m with
  | nil => simp [bumpStar, starCount, h]
  | cons entry rest ih =>
    obtain ⟨k, n, c⟩ := entry
    by_cases hk : k = rid'
    · subst hk
      simp only [bumpStar, if_pos rfl, starCount, if_neg h]
    · simp only [bumpStar, starCount, if_neg hk]
      split
      · rfl
      · exact ih

lemma starCount_processLine (m : List (Nat × String × Nat)) (l : ArchiveLine)
    (rid : Nat) : starCount (processLine m l) rid =
      starCount m rid + (if isStarFor rid l then 1 else 0) := by
  cases l with
  | none => simp [processLine, isStarFor]
  | some e =>
    by_cases ht : e.type = "WatchEvent"
    · by_cases hid : e.repo_id = rid
      · subst hid
        simp only [processLine, if_pos ht]
        rw [starCount_bumpStar_self]
        have hstar : isStarFor e.repo_id (some e) = true := by
          simp [isStarFor, ht]
        rw [hstar]
        simp
      · have hstar : isStarFor rid (some e) = false := by
          simp [isStarFor, hid]
        rw [hstar]
        simp only [processLine, if_pos ht]
        rw [starCount_bumpStar_ne m e.repo_name hid]
        simp
    · have hstar : isStarFor rid (some e) = false := by
        simp [isStarFor, ht]
      rw [hstar]
      simp [processLine, if_neg ht]

/-- C9: the archive-hour fold is a total function of the decoded line
sequence; every repository id ends up with exactly the number of well-formed
`WatchEvent` lines bearing its id; malformed lines and lines of other event
kinds leave the map unchanged; and a failed or empty hour (no lines)
contributes nothing. -/
theorem processHour_counts (m : List (Nat × String × Nat))
    (lines : List ArchiveLine) (rid : Nat) :
    starCount (processHour m lines) rid =
        starCount m rid + lines.countP (isStarFor rid) ∧
      processHour m [] = m ∧
      (∀ e : GHArchiveEvent, e.type ≠ "WatchEvent" → processLine m (some e) = m) ∧
      processLine m none = m := by
  refine ⟨?_, rfl, ?_, rfl⟩
  · induction lines generalizing m with
    | nil => simp [processHour]
    | cons l rest ih =>
      show starCount (processHour (processLine m l) rest) rid = _
      rw [ih (processLine m l), starCount_processLine, List.countP_cons]
      by_cases h : isStarFor rid l
      · simp [h]
        omega
      · simp [h]
  · intro e he
    simp [processLine, if_neg he]

/-- Witness for `processHour_counts`: a non-star event leaves the
(empty) map unchanged. -/
theorem processHour_counts_witness :
    processLine [] (some ⟨"PushEvent", 7, "octo/repo"⟩) = [] :=
  (processHour_counts [] [] 0).2.2.1 ⟨"PushEvent", 7, "octo/repo"⟩ (by decide)

/-! ### C10: bounds of the star-velocity scan -/

/-- Number of entries of a stargazer page whose `starred_at` is at or after
the cutoff `t`. -/
def countSince (t : Int) (entries : List Int) : Nat :=
  entries.countP fun e => decide (t ≤ e)

/-- The page loop of `getStarVelocity` (src/lib/queries.ts), driven by the
page oracle `fetchPage` (`none` models a thrown fetch, which aborts the whole
scan via the enclosing catch). `remaining` counts the pages still to visit;
each visited page's in-window entries are added to both counters, and the
loop breaks early when the oldest entry of a page is older than 30 days. -/
def scanPages (fetchPage : Nat → Option (List Int)) (t7 t30 : Int) :
    Nat → Nat → Nat × Nat → Option (Nat × Nat)
  | 0, _, acc => some acc
  | remaining + 1, page, acc =>
      match fetchPage page with
      | none => none
      | some data =>
          match data.head? with
          | some oldest =>
              if oldest < t30 then
                some (acc.1 + countSince t7 data, acc.2 + countSince t30 data)
              else
                scanPages fetchPage t7 t30 remaining (page + 1)
                  (acc.1 + countSince t7 data, acc.2 + countSince t30 data)
          | none =>
              scanPages fetchPage t7 t30 remaining (page + 1)
                (acc.1 + countSince t7 data, acc.2 + countSince t30 data)

/-- `getStarVelocity` (src/lib/queries.ts): zero stars short-circuits; the
scan starts at `max 1 (totalPages - 2)` (so at most the last 3 pages of the
feed are visited, `totalPages = ceil(totalStars / 100)` being
`(totalStars + 99) / 100` in ℕ), and a thrown scan degrades to zeros. -/
def getStarVelocity (totalStars : Nat) (fetchPage : Nat → Option (List Int))
    (now : Int) : Nat × Nat :=
  if totalStars = 0 then (0, 0)
  else
    match scanPages fetchPage (now - 7 * 24 * 60 * 60 * 1000)
        (now - 30 * 24 * 60 * 60 * 1000)
        ((totalStars + 99) / 100 + 1 - max 1 ((totalStars + 99) / 100 - 2))
        (max 1 ((totalStars + 99) / 100 - 2)) (0, 0) with
    | none => (0, 0)
    | some r => r

lemma countSince_le_length (t : Int) (entries : List Int) :
    countSince t entries ≤ entries.length :=
  List.countP_le_length _

lemma countSince_mono_cutoff {t t' : Int} (h : t' ≤ t) (entries : List Int) :
    countSince t entries ≤ countSince t' entries := by
  unfold countSince
  apply List.countP_mono_left
  intro e _ he
  rw [decide_eq_true_iff] at he ⊢
  omega

lemma scanPages_bounds (fetchPage : Nat → Option (List Int)) (t7 t30 : Int)
    (ht : t30 ≤ t7) (hpages : ∀ p l, fetchPage p = some l → l.length ≤ 100) :
    ∀ (remaining page s7 s30 r7 r30 : Nat),
      scanPages fetchPage t7 t30 remaining page (s7, s30) = some (r7, r30) →
      s7 ≤ s30 → r7 ≤ r30 ∧ r30 ≤ s30 + remaining * 100 := by
  intro remaining
  induction remaining with
  | zero =>
    intro page s7 s30 r7 r30 h hle
    rw [scanPages] at h
    injection h with h
    injection h with h1 h2
    subst h1
    subst h2
    exact ⟨hle, by omega⟩
  | succ rem ih =>
    intro page s7 s30 r7 r30 h hle
    rw [scanPages] at h
    dsimp only at h
    split at h
    · exact absurd h (by simp)
    · rename_i data hf
      have hlen := hpages page data hf
      have hmono := countSince_mono_cutoff ht data
      have h30 : countSince t30 data ≤ 100 :=
        le_trans (countSince_le_length t30 data) hlen
      split at h
      · rename_i oldest hh
        split at h
        · injection h with h
          injection h with h1 h2
          subst h1
          subst h2
          exact ⟨by omega, by omega⟩
        · have hrec := ih (page + 1) (s7 + countSince t7 data)
            (s30 + countSince t30 data) r7 r30 h (by omega)
          omega
      · have hrec := ih (page + 1) (s7 + countSince t7 data)
          (s30 + countSince t30 data) r7 r30 h (by omega)
        omega

/-- C10: whatever the page oracle returns (each page holding at most the 100
requested entries), the star-velocity scan returns counters with
`stars_7d ≤ stars_30d ≤ 300`. -/
theorem getStarVelocity_bounds (totalStars : Nat)
    (fetchPage : Nat → Option (List Int)) (now : Int)
    (hpages : ∀ p l, fetchPage p = some l → l.length ≤ 100) :
    (getStarVelocity totalStars fetchPage now).1 ≤
        (getStarVelocity totalStars fetchPage now).2 ∧
      (getStarVelocity totalStars fetchPage now).2 ≤ 300 := by
  unfold getStarVelocity
  split
  · simp
  · have ht : now - 30 * 24 * 60 * 60 * 1000 ≤ now - 7 * 24 * 60 * 60 * 1000 := by
      omega
    have hrem : (totalStars + 99) / 100 + 1 -
        max 1 ((totalStars + 99) / 100 - 2) ≤ 3 := by
      rcases max_cases 1 ((totalStars + 99) / 100 - 2) with ⟨heq, hcase⟩ | ⟨heq, hcase⟩ <;>
        omega
    cases hscan : scanPages fetchPage (now - 7 * 24 * 60 * 60 * 1000)
        (now - 30 * 24 * 60 * 60 * 1000)
        ((totalStars + 99) / 100 + 1 - max 1 ((totalStars + 99) / 100 - 2))
        (max 1 ((totalStars + 99) / 100 - 2)) (0, 0) with
    | none => simp [hscan]
    | some r =>
      obtain ⟨r7, r30⟩ := r
      have hb := scanPages_bounds fetchPage _ _ ht hpages _ _ 0 0 r7 r30 hscan
        (le_refl 0)
      simp only [hscan]
      exact ⟨hb.1, by omega⟩

/-- Witness for `getStarVelocity_bounds` at a concrete oracle. -/
theorem getStarVelocity_bounds_witness :
    (getStarVelocity 250 (fun _ => some [0, 50]) 100).1 ≤
        (getStarVelocity 250 (fun _ => some [0, 50]) 100).2 ∧
      (getStarVelocity 250 (fun _ => some [0, 50]) 100).2 ≤ 300 :=
  getStarVelocity_bounds 250 (fun _ => some [0, 50]) 100
    (fun p l h => by
      injection h with h
      rw [← h]
      decide)

end GitFind
